import Mathlib

/-!
Verification development for the StockAnalysisKit multi-source financial data
reconciliation engine (src/stock_service.py, src/persistence.py, src/app.py).

Modelling conventions of this shallow embedding:

* Python numbers are modelled exactly: `PyFloat` is a value-level model of a
  CPython float (`fin q` for a finite value as a rational, plus `inf`, `ninf`
  and `nan`), and `PyVal` models the dynamically typed values flowing through
  the helpers (`None`, `bool`, `int`, `float`, `str`).  Binary floating-point
  precision and overflow are intentionally not modelled: a finite float is an
  exact rational.  The IEEE special-value propagation that Python performs on
  `inf`/`nan` (e.g. `inf/inf = nan`, comparisons with `nan` false) is modelled
  faithfully because several properties hinge on it.
* Python `round(x, n)` rounds half to even; `pyRound` mirrors that on exact
  rationals.
* String helpers (`strip`, `upper`, `lower`, `replace`, `rsplit`, `float(str)`
  parsing) are re-implemented structurally over `List Char` so that concrete
  witnesses reduce inside the kernel.  `float(str)` parsing mirrors the CPython
  grammar for signs, decimal points, exponents, `inf`/`infinity`/`nan`
  (numeric-literal underscores are not modelled; none of the verified
  properties depend on them).
-/

/-! ## Python-style string primitives (re-implemented structurally) -/

def pyStripList (p : Char → Bool) (cs : List Char) : List Char :=
  ((cs.dropWhile p).reverse.dropWhile p).reverse

/-- Model of Python `str.strip()` (whitespace strip on both ends). -/
def pyStrip (s : String) : String := String.mk (pyStripList Char.isWhitespace s.data)

/-- Model of Python `str.upper()` for the ASCII symbols this code handles. -/
def pyUpper (s : String) : String := String.mk (s.data.map Char.toUpper)

/-- Model of Python `str.lower()` for the ASCII labels this code handles. -/
def pyLower (s : String) : String := String.mk (s.data.map Char.toLower)

/-- Model of Python `str.replace(",", "")`. -/
def removeCommas (s : String) : String := String.mk (s.data.filter (fun c => c ≠ ','))

def splitOnCharAux (c : Char) : List Char → List Char → List (List Char)
  | [], acc => [acc.reverse]
  | x :: xs, acc =>
      if x = c then acc.reverse :: splitOnCharAux c xs [] else splitOnCharAux c xs (x :: acc)

/-- Split a character list on a separator character (like Python `str.split(sep)`). -/
def splitOnChar (c : Char) (cs : List Char) : List (List Char) := splitOnCharAux c cs []

def isDigitList (cs : List Char) : Bool := cs.all Char.isDigit

def digitsToNat (cs : List Char) : ℕ := cs.foldl (fun a c => a * 10 + (c.toNat - 48)) 0

/-! ## CPython float values -/

/-- Value-level model of a CPython float: a finite rational, an infinity, or NaN. -/
inductive PyFloat where
  | fin (q : ℚ)
  | inf
  | ninf
  | nan
deriving DecidableEq, Repr

/-- Python `round(x, d)`: round half to even at `d` decimal digits, on exact rationals. -/
def pyRound (q : ℚ) (d : ℕ) : ℚ :=
  let scaled := q * (10 : ℚ) ^ d
  let f := ⌊scaled⌋
  let frac := scaled - (f : ℚ)
  let r : ℤ := if frac < 1/2 then f else if 1/2 < frac then f + 1 else if f % 2 = 0 then f else f + 1
  (r : ℚ) / (10 : ℚ) ^ d

/-- Python `round(x, d)` on a float value: NaN and infinities pass through. -/
def PyFloat.roundTo : PyFloat → ℕ → PyFloat
  | .fin q, d => .fin (pyRound q d)
  | f, _ => f

/-- Python float division with IEEE special-value propagation.  Division by the
finite zero is unreachable here: every call site guards the divisor against `== 0`
first (Python would raise `ZeroDivisionError`); the `nan` result on that branch is
arbitrary. -/
def PyFloat.div : PyFloat → PyFloat → PyFloat
  | .nan, _ => .nan
  | _, .nan => .nan
  | .fin a, .fin b => if b = 0 then .nan else .fin (a / b)
  | .fin _, .inf => .fin 0
  | .fin _, .ninf => .fin 0
  | .inf, .fin b => if 0 ≤ b then .inf else .ninf
  | .ninf, .fin b => if 0 ≤ b then .ninf else .inf
  | .inf, .inf => .nan
  | .inf, .ninf => .nan
  | .ninf, .inf => .nan
  | .ninf, .ninf => .nan

/-- Python float addition with IEEE special-value propagation. -/
def PyFloat.add : PyFloat → PyFloat → PyFloat
  | .nan, _ => .nan
  | _, .nan => .nan
  | .fin a, .fin b => .fin (a + b)
  | .inf, .ninf => .nan
  | .ninf, .inf => .nan
  | .inf, _ => .inf
  | _, .inf => .inf
  | .ninf, _ => .ninf
  | _, .ninf => .ninf

/-- Subtraction of a finite constant from a float value. -/
def PyFloat.subQ : PyFloat → ℚ → PyFloat
  | .fin a, c => .fin (a - c)
  | f, _ => f

/-- Multiplication of a float value by a finite positive constant (all call
sites use `100`, `1_000_000` or a positive display-unit multiplier). -/
def PyFloat.mulPos : PyFloat → ℚ → PyFloat
  | .fin a, c => .fin (a * c)
  | f, _ => f

/-- Division of a float value by a finite positive constant (call site: `1e9`). -/
def PyFloat.divPos : PyFloat → ℚ → PyFloat
  | .fin a, c => .fin (a / c)
  | f, _ => f

/-- Python `x > c` for a float `x` and finite constant `c` (NaN compares false). -/
def PyFloat.gtQ : PyFloat → ℚ → Bool
  | .fin a, c => decide (c < a)
  | .inf, _ => true
  | _, _ => false

/-- Python `x < c` for a float `x` and finite constant `c` (NaN compares false). -/
def PyFloat.ltQ : PyFloat → ℚ → Bool
  | .fin a, c => decide (a < c)
  | .ninf, _ => true
  | _, _ => false

/-- Python `x <= c` for a float `x` and finite constant `c` (NaN compares false). -/
def PyFloat.leQ : PyFloat → ℚ → Bool
  | .fin a, c => decide (a ≤ c)
  | .ninf, _ => true
  | _, _ => false

/-- Python `x == c` for a float `x` and finite constant `c` (NaN compares false). -/
def PyFloat.eqQ : PyFloat → ℚ → Bool
  | .fin a, c => decide (a = c)
  | _, _ => false

/-- Python `abs(x) <= c` for finite constant `c`. -/
def PyFloat.absLeQ : PyFloat → ℚ → Bool
  | .fin a, c => decide (|a| ≤ c)
  | _, _ => false

/-- Python `abs(x) >= c` for finite constant `c` (true for both infinities). -/
def PyFloat.absGeQ : PyFloat → ℚ → Bool
  | .fin a, c => decide (c ≤ |a|)
  | .inf, _ => true
  | .ninf, _ => true
  | .nan, _ => false

/-! ## Python dynamic values -/

/-- Model of the dynamically typed Python values reaching the numeric helpers. -/
inductive PyVal where
  | none_
  | bool (b : Bool)
  | int (n : ℤ)
  | float (f : PyFloat)
  | str (s : String)
deriving DecidableEq, Repr

/-- Source `_is_number` (stock_service.py:502): `isinstance(value, (int, float))
and not isinstance(value, bool) and not math.isnan(value)`. -/
def _is_number : PyVal → Bool
  | .int _ => true
  | .float .nan => false
  | .float _ => true
  | _ => false

/-- Python `float(value)` on values that already passed `_is_number` (plus the
bool conversion, used when a raw cell is converted).  Non-convertible values map
to the junk result NaN; they are unreachable behind the `_is_number` guards. -/
def PyVal.toFloat : PyVal → PyFloat
  | .int n => .fin n
  | .float f => f
  | .bool b => .fin (if b then 1 else 0)
  | _ => .nan

/-! ## float(str) parsing and the display-number helper -/

def parseMantissa (cs : List Char) : Option ℚ :=
  match splitOnChar '.' cs with
  | [a] => if a ≠ [] && isDigitList a then some (digitsToNat a) else none
  | [a, b] =>
      if (a ≠ [] || b ≠ []) && isDigitList a && isDigitList b then
        some ((digitsToNat a : ℚ) + (digitsToNat b : ℚ) / (10 : ℚ) ^ b.length)
      else none
  | _ => none

def parseExpPart (cs : List Char) : Option ℤ :=
  match cs with
  | '+' :: rest => if rest ≠ [] && isDigitList rest then some ((digitsToNat rest : ℤ)) else none
  | '-' :: rest => if rest ≠ [] && isDigitList rest then some (-(digitsToNat rest : ℤ)) else none
  | _ => if cs ≠ [] && isDigitList cs then some ((digitsToNat cs : ℤ)) else none

/-- Model of Python `float(text)` on a string: strips whitespace, accepts an
optional sign, `inf`/`infinity`/`nan`, and decimal mantissa with optional
exponent.  `none` models `ValueError`. -/
def pyParseFloat (s : String) : Option PyFloat :=
  let t := (pyStripList Char.isWhitespace s.data).map Char.toLower
  match t with
  | '+' :: rest => pyParseFloatBody rest true
  | '-' :: rest => pyParseFloatBody rest false
  | _ => pyParseFloatBody t true
where
  pyParseFloatBody (body : List Char) (pos : Bool) : Option PyFloat :=
    if body = "inf".data || body = "infinity".data then
      some (if pos then .inf else .ninf)
    else if body = "nan".data then some .nan
    else
      match splitOnChar 'e' body with
      | [m] => (parseMantissa m).map (fun q => .fin (if pos then q else -q))
      | [m, ex] =>
          match parseMantissa m, parseExpPart ex with
          | some q, some e =>
              some (.fin ((if pos then q else -q) * (10 : ℚ) ^ e))
          | _, _ => none
      | _ => none

/-- Source `_parse_display_number` (stock_service.py:535): strips commas,
handles `N/A`/`--`, a trailing `%`, and the display unit suffixes T/B/M/K. -/
def _parse_display_number (text : String) : PyVal :=
  if text = "" then .none_
  else
    let v := removeCommas (pyStrip text)
    if v = "N/A" || v = "--" then .none_
    else
      let is_pct := v.data.getLast? = some '%'
      let v1 := if is_pct then String.mk v.data.dropLast else v
      let step : ℚ × String :=
        if v1.data.getLast? = some 'T' then (1000000000000, String.mk v1.data.dropLast)
        else if v1.data.getLast? = some 'B' then (1000000000, String.mk v1.data.dropLast)
        else if v1.data.getLast? = some 'M' then (1000000, String.mk v1.data.dropLast)
        else if v1.data.getLast? = some 'K' then (1000, String.mk v1.data.dropLast)
        else (1, v1)
      match pyParseFloat step.2 with
      | none => .none_
      | some num => if is_pct then .float num else .float (num.mulPos step.1)

/-- Source `_to_float` (stock_service.py:814): numbers pass through, `None`
stays `None`, and strings go through strip/comma-removal, a sentinel list,
`float(text)` and finally `_parse_display_number`. -/
def _to_float (value : PyVal) : PyVal :=
  if _is_number value then .float value.toFloat
  else if value = .none_ then .none_
  else
    let text := removeCommas (pyStrip (pyStrVal value))
    if text = "" || text = "--" || text = "N/A" || text = "NA" || text = "nan"
        || text = "NaN" || text = "None" then .none_
    else
      match pyParseFloat text with
      | some parsed => if _is_number (.float parsed) then .float parsed else .none_
      | none =>
          let parsed := _parse_display_number text
          if _is_number parsed then .float parsed.toFloat else .none_
where
  /-- Python `str(value)` for the values that can reach the string branch
  (strings, bools and the NaN float; numbers and `None` are handled earlier). -/
  pyStrVal : PyVal → String
    | .str s => s
    | .bool b => if b then "True" else "False"
    | .float .nan => "nan"
    | .float .inf => "inf"
    | .float .ninf => "-inf"
    | _ => ""

/-! ## Pure numeric helpers of the metric computation engine -/

/-- Source `_to_billions` (stock_service.py:506): `round(float(value) / 1e9, 2)`
behind the `_is_number` guard. -/
def _to_billions (value : PyVal) : PyVal :=
  if _is_number value then .float ((value.toFloat.divPos 1000000000).roundTo 2)
  else .none_

/-- Source `_round` (stock_service.py:511): `round(float(value), digits)` behind
the `_is_number` guard. -/
def _round (value : PyVal) (digits : ℕ := 2) : PyVal :=
  if _is_number value then .float (value.toFloat.roundTo digits) else .none_

/-- Source `_pct_change` (stock_service.py:518): `round((new/old - 1) * 100, 2)`,
`None` when either operand is non-numeric or the base is zero. -/
def _pct_change (new old : PyVal) : PyVal :=
  if !_is_number new || !_is_number old || old.toFloat.eqQ 0 then .none_
  else .float ((((new.toFloat.div old.toFloat).subQ 1).mulPos 100).roundTo 2)

/-- Source `_to_bounded_pct` (stock_service.py:1200): `_round((num/den) * 100)`,
`None` when either operand is non-numeric or the denominator is zero. -/
def _to_bounded_pct (numerator denominator : PyVal) : PyVal :=
  if !_is_number numerator || !_is_number denominator || denominator.toFloat.eqQ 0 then .none_
  else _round (.float ((numerator.toFloat.div denominator.toFloat).mulPos 100)) 2

/-- Source `_to_pct` (stock_service.py:832): `_to_float`, then scale by 100 when
the magnitude is at most 1.5, then `_round`. -/
def _to_pct (value : PyVal) : PyVal :=
  let number := _to_float value
  if !_is_number number then .none_
  else
    let scaled := if number.toFloat.absLeQ (3/2) then number.toFloat.mulPos 100
                  else number.toFloat
    _round (.float scaled) 2

/-- Source `_classify_surprise` (stock_service.py:982). -/
def _classify_surprise (surprise_pct : PyVal) : String :=
  if !_is_number surprise_pct then "insufficient"
  else if surprise_pct.toFloat.gtQ (1/2) then "beat"
  else if surprise_pct.toFloat.ltQ (-(1/2)) then "miss"
  else "inline"

/-- Source `_normalize_shares_for_eps` (stock_service.py:1302): rejects
non-numeric and non-positive share counts; multiplies a share count below one
million by one million when the net income magnitude is at least 1e8. -/
def _normalize_shares_for_eps (shares net_income : PyVal) : PyVal :=
  if !_is_number shares then .none_
  else
    let s := shares.toFloat
    if s.leQ 0 then .none_
    else if s.ltQ 1000000 && _is_number net_income && net_income.toFloat.absGeQ 100000000 then
      .float (s.mulPos 1000000)
    else .float s

/-! ## Stable sorting (model of CPython's stable `list.sort(key=...)`) -/

def stableInsert (le : α → α → Bool) (a : α) : List α → List α
  | [] => [a]
  | b :: bs => if le a b then a :: b :: bs else b :: stableInsert le a bs

/-- Insertion sort with a boolean "comes before or equal" test.  Inserting an
element after all earlier-listed equal elements makes this a stable sort, the
behaviour CPython guarantees for `list.sort`. -/
def stableSortBy (le : α → α → Bool) : List α → List α
  | [] => []
  | a :: as => stableInsert le a (stableSortBy le as)

/-! ## Currency inference from the ticker symbol -/

/-- Source `SYMBOL_SUFFIX_CURRENCY_MAP` (stock_service.py:174): Yahoo ticker
suffix to quote currency fallback map. -/
def SYMBOL_SUFFIX_CURRENCY_MAP : List (String × String) :=
  [("HK", "HKD"), ("SS", "CNY"), ("SZ", "CNY"), ("SH", "CNY"), ("BJ", "CNY"),
   ("T", "JPY"), ("KS", "KRW"), ("KQ", "KRW"), ("TW", "TWD"), ("TWO", "TWD"),
   ("L", "GBP"), ("PA", "EUR"), ("AS", "EUR"), ("BR", "EUR"), ("MI", "EUR"),
   ("DE", "EUR"), ("MC", "EUR"), ("HE", "EUR"), ("CO", "DKK"), ("ST", "SEK"),
   ("OL", "NOK"), ("SW", "CHF"), ("AX", "AUD"), ("TO", "CAD"), ("V", "CAD"),
   ("SI", "SGD"), ("NS", "INR"), ("BO", "INR"), ("BK", "THB"), ("JK", "IDR"),
   ("KL", "MYR"), ("VN", "VND"), ("SA", "BRL"), ("MX", "MXN"), ("JO", "ZAR"),
   ("TA", "ILS"), ("ME", "RUB"), ("BA", "ARS")]

/-- Python `SYMBOL_SUFFIX_CURRENCY_MAP.get(suffix)` (dict with distinct keys). -/
def suffixCurrencyLookup (suffix : String) : Option String :=
  (SYMBOL_SUFFIX_CURRENCY_MAP.find? (fun p => decide (p.1 = suffix))).map (fun p => p.2)

/-- Python `raw.rsplit(".", 1)`: split at the last dot (the caller only uses it
when a dot is present). -/
def rsplitLastDot (s : String) : String × String :=
  match (splitOnChar '.' s.data).reverse with
  | [] => (s, "")
  | last :: revRest =>
      (String.mk (List.intercalate ['.'] revRest.reverse), String.mk last)

/-- Python `"." in raw`. -/
def containsChar (s : String) (c : Char) : Bool := s.data.any (fun x => decide (x = c))

/-- Source `_infer_currency_from_symbol` (stock_service.py:223): table lookup on
the post-dot suffix; single-letter suffix with an all-alphabetic base is a US
share class; undotted symbols default to USD. -/
def _infer_currency_from_symbol (symbol : String) : Option String :=
  let raw := pyUpper (pyStrip symbol)
  if raw = "" then none
  else if containsChar raw '.' then
    let p := rsplitLastDot raw
    match suffixCurrencyLookup p.2 with
    | some mapped => some mapped
    | none =>
        if p.2.length = 1 ∧ p.1 ≠ "" ∧ p.1.data.all Char.isAlpha = true then some "USD"
        else none
  else some "USD"

/-! ## Statement frames and the field extractor -/

/-- Source `_normalize_label_key` (stock_service.py:1224):
`re.sub(r"[^a-z0-9]+", "", str(label).lower())`. -/
def _normalize_label_key (label : String) : String :=
  String.mk ((label.data.map Char.toLower).filter (fun c => c.isAlpha || c.isDigit))

/-- Statement frame model: a pandas DataFrame whose rows are line-item labels,
whose columns are reporting periods (chronological day numbers), and whose
cells are dynamically typed values. -/
structure Frame where
  index : List String
  columns : List ℤ
  entry : String → ℤ → PyVal

/-- pandas `df.empty`: true when either axis has length zero. -/
def Frame.isEmptyDf (df : Frame) : Bool := df.index.isEmpty || df.columns.isEmpty

/-- Source `_statement_columns_sorted` (stock_service.py:1228): sort the period
columns newest first (stable, like `list.sort(reverse=True)`).  Every column of
this model is already a chronological day number, so the date-parse failure
branch of the source is vacuous here. -/
def _statement_columns_sorted (df : Frame) : List ℤ :=
  if df.isEmptyDf then []
  else stableSortBy (fun a b => decide (b ≤ a)) df.columns

/-- The `row_map` lookup of `_extract_income_stmt_value`: the first row label
whose normalized key equals the given nonempty key (empty keys are never
inserted into `row_map`). -/
def rowLabelForKey (index : List String) (key : String) : Option String :=
  if key = "" then none
  else index.find? (fun idx => decide (_normalize_label_key idx = key))

/-- Python `float(value)` as a fallible conversion (`none` models an exception). -/
def pyFloatFn : PyVal → Option PyFloat
  | .int n => some (.fin n)
  | .float f => some f
  | .bool b => some (.fin (if b then 1 else 0))
  | .str s => pyParseFloat s
  | .none_ => none

/-- The alias loop of `_extract_income_stmt_value` (stock_service.py:1279):
first alias whose row holds a numeric cell, with a `float(value)` retry. -/
def extractFromAliases (df : Frame) (col : ℤ) : List String → Option PyFloat
  | [] => none
  | al :: rest =>
      match rowLabelForKey df.index (_normalize_label_key al) with
      | none => extractFromAliases df col rest
      | some idx =>
          let value := df.entry idx col
          if _is_number value then some value.toFloat
          else
            match pyFloatFn value with
            | some v => if _is_number (.float v) then some v else extractFromAliases df col rest
            | none => extractFromAliases df col rest

/-- Source `_extract_income_stmt_value` (stock_service.py:1266). -/
def _extract_income_stmt_value (df : Frame) (column : Option ℤ) (aliases : List String) :
    Option PyFloat :=
  match column with
  | none => none
  | some col =>
      if df.isEmptyDf then none
      else if col ∈ df.columns then extractFromAliases df col aliases
      else none

def revenueAliases : List String := ["Total Revenue", "TotalRevenue", "Revenue"]

def grossProfitAliases : List String := ["Gross Profit", "GrossProfit"]

def operatingIncomeAliases : List String :=
  ["Operating Income", "OperatingIncome", "Income From Operations"]

def netIncomeAliases : List String :=
  ["Net Income", "NetIncome", "Net Income Common Stockholders",
   "Net Income Including Noncontrolling Interests"]

/-- `_is_number` applied to an extractor result (Python `None` or a float). -/
def optIsNumber : Option PyFloat → Bool
  | none => false
  | some f => decide (f ≠ .nan)

/-- The `any(_is_number(v) for v in (revenue, gross, operating, net))` candidate
test of `_build_financial_from_income_stmt` (stock_service.py:1496). -/
def coreFieldPresent (df : Frame) (col : ℤ) : Bool :=
  optIsNumber (_extract_income_stmt_value df (some col) revenueAliases)
  || optIsNumber (_extract_income_stmt_value df (some col) grossProfitAliases)
  || optIsNumber (_extract_income_stmt_value df (some col) operatingIncomeAliases)
  || optIsNumber (_extract_income_stmt_value df (some col) netIncomeAliases)

/-- The `for candidate_col in columns: ... break` loop of
`_build_financial_from_income_stmt` (stock_service.py:1492), with the
pre-initialized `latest_col = columns[0]` as the no-break fallback. -/
def pickLatestCol (df : Frame) : List ℤ → ℤ → ℤ
  | [], acc => acc
  | c :: cs, acc => if coreFieldPresent df c then c else pickLatestCol df cs acc

/-- The latest-usable-column selection of `_build_financial_from_income_stmt`
(stock_service.py:1470): sort the columns newest first, then take the first
column with a usable core field (newest column when none qualifies). -/
def latestUsableColumn (df : Frame) : Option ℤ :=
  match _statement_columns_sorted df with
  | [] => none
  | c0 :: rest => some (pickLatestCol df (c0 :: rest) c0)

/-- The `candidates.sort(key=lambda x: (x[0], x[1]))` order of
`_find_same_period_last_year`: lexicographic on (distance to 365, delta). -/
def candLe (a b : ℕ × ℤ × ℤ) : Bool :=
  decide (a.1 < b.1) || (decide (a.1 = b.1) && decide (a.2.1 ≤ b.2.1))

/-- Source `_find_same_period_last_year` (stock_service.py:1243): among the
non-head columns dated 250 to 500 days before the latest column, pick the one
closest to exactly 365 days (ties broken towards the smaller delta); with no
candidate in the window, fall back to the fifth-newest column when it exists.
Columns are chronological day numbers, so the date-parse failure branch of the
source is vacuous here. -/
def _find_same_period_last_year (columns : List ℤ) (latest_col : Option ℤ) : Option ℤ :=
  match latest_col with
  | none => none
  | some latest =>
      if columns.isEmpty then none
      else
        let candidates := columns.tail.filterMap (fun col =>
          let delta := latest - col
          if 250 ≤ delta ∧ delta ≤ 500 then some ((delta - 365).natAbs, delta, col) else none)
        match stableSortBy candLe candidates with
        | [] => columns.get? 4
        | t :: _ => some t.2.2

/-- The comparison-column choice of `_build_financial_from_income_stmt`
(stock_service.py:1501): quarterly frames use `_find_same_period_last_year`,
any other period type uses the second-newest column. -/
def selectPrevCol (columns : List ℤ) (latest_col : Option ℤ) (period_type : String) : Option ℤ :=
  if period_type = "quarterly" then _find_same_period_last_year columns latest_col
  else if 2 ≤ columns.length then columns.get? 1 else none

/-! ## Expectation and guidance engine: beat/miss snapshot -/

/-- A pandas Series row of the earnings-history frame: ordered
(column label, cell value) pairs as yielded by `series.items()`. -/
abbrev SeriesRow := List (String × PyVal)

/-- The inner loop of `_series_value_by_aliases`: first matching column whose
cell parses to a number. -/
def seriesScan (keys : List String) : SeriesRow → PyVal
  | [] => .none_
  | (col, value) :: rest =>
      if _normalize_label_key col ∈ keys then
        let parsed := _to_float value
        if _is_number parsed then .float parsed.toFloat else seriesScan keys rest
      else seriesScan keys rest

/-- Source `_series_value_by_aliases` (stock_service.py:888). -/
def _series_value_by_aliases (series : SeriesRow) (aliases : List String) : PyVal :=
  seriesScan (aliases.map _normalize_label_key) series

/-- Source `_safe_iso_date` (stock_service.py:901), specialised to string row
indexes: empty after strip gives `None`, otherwise the text (the
`_to_iso_date_from_text` reformatting is collapsed to the identity; the
invariants proved below do not depend on the exact text, only on sort order
and truthiness). -/
def _safe_iso_date (value : String) : Option String :=
  let text := pyStrip value
  if text = "" then none else some text

/-- One record of the `records` list built by `_build_beat_miss_snapshot`. -/
structure BMRecord where
  quarter : Option String
  actual : PyVal
  estimate : PyVal
  surprise_pct : PyVal
deriving DecidableEq, Repr

/-- The `beat_miss` sub-snapshot (the shape returned by
`_build_beat_miss_snapshot`). -/
structure BeatMissSnapshot where
  latest_quarter : Option String
  latest_eps_actual : PyVal
  latest_eps_estimate : PyVal
  latest_surprise_pct : PyVal
  latest_result : String
  beat_count_4q : ℕ
  miss_count_4q : ℕ
  inline_count_4q : ℕ
  beat_streak_4q : ℕ
  avg_surprise_pct_4q : PyVal
  history_surprise_pct_4q : List PyVal
  conclusion : String
deriving Repr

/-- The `beat_miss` base of `_empty_expectation_guidance_snapshot`
(stock_service.py:914). -/
def emptyBeatMiss : BeatMissSnapshot :=
  { latest_quarter := none
    latest_eps_actual := .none_
    latest_eps_estimate := .none_
    latest_surprise_pct := .none_
    latest_result := "insufficient"
    beat_count_4q := 0
    miss_count_4q := 0
    inline_count_4q := 0
    beat_streak_4q := 0
    avg_surprise_pct_4q := .none_
    history_surprise_pct_4q := []
    conclusion := "信息不足：暂无可用的财报 beat/miss 与历史 EPS surprise 数据。" }

/-- One iteration of the `for idx, row in history_df.iterrows()` loop of
`_build_beat_miss_snapshot` (stock_service.py:997). -/
def mkBeatMissRecord (idx : String) (row : SeriesRow) : BMRecord :=
  let actual := _series_value_by_aliases row ["epsActual", "eps actual", "reportedEPS", "actual"]
  let estimate := _series_value_by_aliases row ["epsEstimate", "eps estimate", "estimate"]
  let surprise :=
    _series_value_by_aliases row ["surprisePercent", "surprise(%)", "surprise %", "surprise"]
  let sp0 := _to_pct surprise
  let sp :=
    if decide (sp0 = PyVal.none_) && _is_number actual && _is_number estimate
        && !(estimate.toFloat.eqQ 0) then
      _pct_change actual estimate
    else sp0
  { quarter := _safe_iso_date idx
    actual := _round actual 2
    estimate := _round estimate 2
    surprise_pct := sp }

/-- The trailing beat-streak loop (`for item in reversed(recent)`),
applied to the already-reversed list. -/
def beatStreakCount : List BMRecord → ℕ
  | [] => 0
  | r :: rest =>
      if _classify_surprise r.surprise_pct = "beat" then beatStreakCount rest + 1 else 0

/-- Python `sum(values)` over float values (starts from the int 0). -/
def pySumFloats (vals : List PyVal) : PyFloat :=
  vals.foldl (fun acc v => acc.add v.toFloat) (.fin 0)

/-- Source `_build_beat_miss_snapshot` (stock_service.py:992), on a history
frame modelled as its `iterrows()` sequence of (row index, row series). -/
def _build_beat_miss_snapshot (history_df : List (String × SeriesRow)) : BeatMissSnapshot :=
  if history_df.isEmpty then emptyBeatMiss
  else
    let records1 := (history_df.map (fun p => mkBeatMissRecord p.1 p.2)).filter
      (fun r => r.quarter.isSome)
    if records1.isEmpty then emptyBeatMiss
    else
      let records := stableSortBy
        (fun a b => decide ((a.quarter.getD "") ≤ (b.quarter.getD ""))) records1
      let recent := records.drop (records.length - 4)
      match recent.getLast? with
      | none => emptyBeatMiss
      | some latest =>
          let surprise_values :=
            (recent.filter (fun r => _is_number r.surprise_pct)).map (fun r => r.surprise_pct)
          let beat_count :=
            (surprise_values.filter (fun v => decide (_classify_surprise v = "beat"))).length
          let miss_count :=
            (surprise_values.filter (fun v => decide (_classify_surprise v = "miss"))).length
          let inline_count :=
            (surprise_values.filter (fun v =>
              decide (_classify_surprise v ≠ "beat" ∧ _classify_surprise v ≠ "miss"))).length
          let beat_streak := beatStreakCount recent.reverse
          let avg_surprise :=
            if surprise_values.isEmpty then PyVal.none_
            else _round (.float ((pySumFloats surprise_values).divPos
              (surprise_values.length : ℚ))) 2
          let conclusion :=
            if 3 ≤ beat_streak then "近4季连续超预期，历史兑现能力强。"
            else if 3 ≤ beat_count ∧ miss_count = 0 then "近4季以超预期为主，历史表现偏稳健。"
            else if 2 ≤ miss_count ∧ beat_count ≤ 1 then "近4季 miss 次数偏多，历史兑现存在压力。"
            else if ¬surprise_values.isEmpty then "近4季 beat/miss 交替出现，历史表现分化。"
            else emptyBeatMiss.conclusion
          { latest_quarter := latest.quarter
            latest_eps_actual := latest.actual
            latest_eps_estimate := latest.estimate
            latest_surprise_pct := latest.surprise_pct
            latest_result := _classify_surprise latest.surprise_pct
            beat_count_4q := beat_count
            miss_count_4q := miss_count
            inline_count_4q := inline_count
            beat_streak_4q := beat_streak
            avg_surprise_pct_4q := avg_surprise
            history_surprise_pct_4q := surprise_values
            conclusion := conclusion }

/-! ## The persistent financial cache -/

/-- A JSON value (the decoded form of the stored `payload_json`). -/
inductive Json where
  | null
  | bool (b : Bool)
  | num (q : ℚ)
  | str (s : String)
  | arr (xs : List Json)
  | obj (kvs : List (String × Json))
deriving Repr

/-- Python `isinstance(x, dict)` on a decoded JSON value. -/
def Json.isObj : Json → Bool
  | .obj _ => true
  | _ => false

/-- One row of the `financial_cache` table, at the decoded level: `payload` is
the parse of `payload_json` (`none` models a `json.loads` failure) and
`updatedAt` is the parse of `updated_at`, in UTC hours (`none` models a
`datetime.fromisoformat` failure).  JSON and ISO-8601 encoding are bijective on
well-formed rows, so the embedding stores decoded values directly. -/
structure CacheRow where
  payload : Option Json
  updatedAt : Option ℚ

/-- The `financial_cache` table keyed by symbol (`none` = no row). -/
abbrev CacheDb := String → Option CacheRow

/-- The `str(symbol or "").strip().upper()` normalization shared by the cache
read and write paths. -/
def normalizeCacheSymbol (symbol : String) : String := pyUpper (pyStrip symbol)

/-- Python `ttl_hours is not None and float(ttl_hours) <= 0`. -/
def ttlNonPos : Option ℚ → Bool
  | none => false
  | some t => decide (t ≤ 0)

/-- Source `get_cached_financial_bundle` (persistence.py:323).  `now` and the
stored timestamps are in UTC hours.  The function is pure in the store: a read
never mutates or deletes the row. -/
def get_cached_financial_bundle (db : CacheDb) (now : ℚ) (symbol : String)
    (ttl_hours : Option ℚ := some 12) : Option Json :=
  if ttlNonPos ttl_hours then none
  else
    let target := normalizeCacheSymbol symbol
    if target = "" then none
    else
      match db target with
      | none => none
      | some row =>
          let fresh : Bool :=
            match ttl_hours with
            | none => true
            | some t =>
                match row.updatedAt with
                | none => false
                | some ts => decide (now - ts ≤ t)
          if fresh then
            match row.payload with
            | some (Json.obj kvs) => some (Json.obj kvs)
            | _ => none
          else none

/-- Source `set_cached_financial_bundle` (persistence.py:365): upsert keyed by
the normalized symbol, always overwriting, stamping the current time. -/
def set_cached_financial_bundle (db : CacheDb) (now : ℚ) (symbol : String)
    (financial ai_financial_context : Json) : CacheDb :=
  let target := normalizeCacheSymbol symbol
  if target = "" then db
  else
    let payload := Json.obj
      [("financial", if financial.isObj then financial else Json.obj []),
       ("ai_financial_context",
        if ai_financial_context.isObj then ai_financial_context else Json.obj [])]
    fun s => if s = target then some { payload := some payload, updatedAt := some now } else db s

/-! ## The fetch orchestrator -/

/-- A raised Python exception: its type name and message. -/
structure PyExc where
  typeName : String
  message : String

/-- The per-symbol bundle shape the orchestrator manipulates: the `symbol` and
`error` fields it reads and writes, and the sub-objects of the error record. -/
structure Bundle where
  symbol : String
  error : Option String
  currency : Json
  realtime : Json
  financial : Json
  forecast : Json
  news : Json
  expectation_guidance : Json

/-- The `error_text` built at the unit boundary of `fetch_multiple_stocks`
(app.py:303): the f-string "抓取失败: ", the exception type name, ": " and the
exception message, stripped. -/
def errorText (exc : PyExc) : String :=
  pyStrip ("抓取失败: " ++ exc.typeName ++ ": " ++ exc.message)

/-- The structured error record substituted for a failed symbol (app.py:311). -/
def errorBundle (symbol : String) (exc : PyExc) : Bundle :=
  { symbol := symbol
    error := some (errorText exc)
    currency := Json.obj [("quote", Json.null), ("financial", Json.null), ("forecast", Json.null)]
    realtime := Json.obj
      [("stock_name", Json.null), ("trade_date", Json.null), ("currency", Json.null)]
    financial := Json.obj [("currency", Json.null)]
    forecast := Json.obj [("currency", Json.null)]
    news := Json.arr []
    expectation_guidance := Json.obj [] }

/-- One unit of work, as observed through `future.result()`: the bundle
`get_stock_bundle` returned, or the caught-exception error record. -/
def settleUnit (fetch : String → Except PyExc Bundle) (symbol : String) : Bundle :=
  match fetch symbol with
  | .ok bundle => bundle
  | .error exc => errorBundle symbol exc

/-- The `order = ...` dict comprehension of `fetch_multiple_stocks` (app.py:324)
as a function-valued dict: later duplicate keys overwrite earlier ones. -/
def orderDict (symbols : List String) : String → Option ℕ :=
  symbols.enum.foldl (fun m p => fun t => if t = p.2 then some p.1 else m t) (fun _ => none)

/-- The sort key `order.get(item.get("symbol", ""), 999)` (app.py:325). -/
def orderKey (symbols : List String) (s : String) : ℕ := (orderDict symbols s).getD 999

/-- Source `fetch_multiple_stocks` (app.py:283): run one unit per requested
symbol on the worker pool, substitute the structured error record when a unit
raises, then stably re-sort the completed results into the caller's requested
symbol order.  `completion` is the non-deterministic `as_completed` order, a
permutation of `symbols`. -/
def fetch_multiple_stocks (fetch : String → Except PyExc Bundle)
    (symbols completion : List String) : List Bundle :=
  let results := completion.map (settleUnit fetch)
  stableSortBy (fun b1 b2 => decide (orderKey symbols b1.symbol ≤ orderKey symbols b2.symbol))
    results

/-! ## Auxiliary definitions used by the verification theorems -/

/-- A value that is one of the two float infinities. -/
def PyVal.isInfinite : PyVal → Bool
  | .float .inf => true
  | .float .ninf => true
  | _ => false

/-- A helper result that is Python `None` or a finite float. -/
def isNoneOrFinite (v : PyVal) : Prop := v = .none_ ∨ ∃ q : ℚ, v = .float (.fin q)

/-- The spec's empty-latest-quarter example frame: the newest column 2025-12-31
(day number 20453) reports only a Diluted EPS of 1.63 with Total Revenue NaN,
while the prior column 2025-09-30 (day number 20361) reports revenue 7.69e9. -/
def stubLatestQuarterFrame : Frame :=
  { index := ["Total Revenue", "Diluted EPS"]
    columns := [20361, 20453]
    entry := fun idx col =>
      if idx = "Total Revenue" ∧ col = 20453 then .float .nan
      else if idx = "Diluted EPS" ∧ col = 20453 then .float (.fin (163/100))
      else if idx = "Total Revenue" ∧ col = 20361 then .float (.fin 7690000000)
      else .float .nan }

/-- A minimal successful bundle for a symbol, used by the orchestrator witness. -/
def plainBundle (symbol : String) : Bundle :=
  { symbol := symbol, error := none, currency := Json.null, realtime := Json.null,
    financial := Json.null, forecast := Json.null, news := Json.null,
    expectation_guidance := Json.null }

/-- A concrete fetch function for the orchestrator witness: the unit for symbol
BBB raises a ValueError, every other unit succeeds. -/
def witnessFetch (s : String) : Except PyExc Bundle :=
  if s = "BBB" then Except.error ⟨"ValueError", "boom"⟩ else Except.ok (plainBundle s)

/-! ## Library lemmas about the stable sort -/

theorem stableInsert_perm (le : α → α → Bool) (a : α) (l : List α) :
    (stableInsert le a l).Perm (a :: l) := by
  induction l with
  | nil => simp [stableInsert]
  | cons b bs ih =>
    simp only [stableInsert]
    split
    · exact List.Perm.refl _
    · exact (ih.cons b).trans (List.Perm.swap a b bs)

theorem stableSortBy_perm (le : α → α → Bool) (l : List α) :
    (stableSortBy le l).Perm l := by
  induction l with
  | nil => simp [stableSortBy]
  | cons a as ih =>
    exact (stableInsert_perm le a (stableSortBy le as)).trans (ih.cons a)

theorem mem_stableInsert (le : α → α → Bool) (a x : α) (l : List α) :
    x ∈ stableInsert le a l ↔ x = a ∨ x ∈ l := by
  simpa using (stableInsert_perm le a l).mem_iff

theorem stableInsert_sorted (le : α → α → Bool)
    (htot : ∀ x y, le x y = true ∨ le y x = true)
    (htrans : ∀ x y z, le x y = true → le y z = true → le x z = true)
    (a : α) (l : List α) (h : l.Pairwise (fun x y => le x y = true)) :
    (stableInsert le a l).Pairwise (fun x y => le x y = true) := by
  induction l with
  | nil => simp [stableInsert]
  | cons b bs ih =>
    obtain ⟨hb, hbs⟩ := List.pairwise_cons.mp h
    simp only [stableInsert]
    split
    case isTrue hab =>
      refine List.Pairwise.cons ?_ (List.Pairwise.cons hb hbs)
      intro x hx
      rcases List.mem_cons.mp hx with rfl | hx
      · exact hab
      · exact htrans a b x hab (hb x hx)
    case isFalse hab =>
      refine List.Pairwise.cons ?_ (ih hbs)
      intro x hx
      rcases (mem_stableInsert le a x bs).mp hx with rfl | hx
      · rcases htot x b with h1 | h1
        · exact absurd h1 hab
        · exact h1
      · exact hb x hx

theorem stableSortBy_sorted (le : α → α → Bool)
    (htot : ∀ x y, le x y = true ∨ le y x = true)
    (htrans : ∀ x y z, le x y = true → le y z = true → le x z = true)
    (l : List α) :
    (stableSortBy le l).Pairwise (fun x y => le x y = true) := by
  induction l with
  | nil => simp [stableSortBy]
  | cons a as ih => exact stableInsert_sorted le htot htrans a _ ih

theorem sorted_head_min (le : α → α → Bool)
    (htot : ∀ x y, le x y = true ∨ le y x = true)
    (t : α) (rest : List α)
    (h : (t :: rest).Pairwise (fun x y => le x y = true)) :
    ∀ x ∈ t :: rest, le t x = true := by
  intro x hx
  rcases List.mem_cons.mp hx with rfl | hx
  · rcases htot x x with h1 | h1 <;> exact h1
  · exact (List.pairwise_cons.mp h).1 x hx

/-- A permutation of a weakly sorted list onto a strictly sorted list (by a
numeric key) is an equality: this is what lets the orchestrator's stable sort
restore the caller's requested order when the keys are distinct. -/
theorem eq_of_perm_sorted_strict (k : α → ℕ) :
    ∀ (l₂ l₁ : List α), l₁.Perm l₂ →
      l₁.Pairwise (fun x y => k x ≤ k y) →
      l₂.Pairwise (fun x y => k x < k y) → l₁ = l₂ := by
  intro l₂
  induction l₂ with
  | nil =>
    intro l₁ hperm _ _
    exact hperm.eq_nil
  | cons b bs ih =>
    intro l₁ hperm h1 h2
    match l₁, hperm with
    | [], hperm => exact absurd hperm.symm (by simp)
    | a :: t, hperm =>
      by_cases hab : a = b
      · subst hab
        have ht : t.Perm bs := hperm.cons_inv
        have := ih t ht (List.pairwise_cons.mp h1).2 (List.pairwise_cons.mp h2).2
        rw [this]
      · exfalso
        have hbmem : b ∈ a :: t := hperm.mem_iff.mpr (List.mem_cons_self b bs)
        have hbt : b ∈ t := by
          rcases List.mem_cons.mp hbmem with h | h
          · exact absurd h.symm hab
          · exact h
        have hamem : a ∈ b :: bs := hperm.mem_iff.mp (List.mem_cons_self a t)
        have habs : a ∈ bs := by
          rcases List.mem_cons.mp hamem with h | h
          · exact absurd h hab
          · exact h
        have hle : k a ≤ k b := (List.pairwise_cons.mp h1).1 b hbt
        have hlt : k b < k a := (List.pairwise_cons.mp h2).1 a habs
        omega


/-! ## Claim theorems -/

/-- C5 (amended): a non-numeric or non-positive share count yields null; a
positive finite share count below 1,000,000 is multiplied by 1,000,000 exactly
when the accompanying net income is numeric with magnitude AT LEAST 100,000,000
(the source tests `>= 100_000_000`, not a strict inequality); in every other
case the share count is returned unchanged. -/
theorem C5_normalize_shares (shares net_income : PyVal) :
    (_is_number shares = false → _normalize_shares_for_eps shares net_income = .none_)
    ∧ (∀ q : ℚ, _is_number shares = true → shares.toFloat = .fin q → q ≤ 0 →
        _normalize_shares_for_eps shares net_income = .none_)
    ∧ (∀ q r : ℚ, _is_number shares = true → shares.toFloat = .fin q → 0 < q → q < 1000000 →
        _is_number net_income = true → net_income.toFloat = .fin r → 100000000 ≤ |r| →
        _normalize_shares_for_eps shares net_income = .float (.fin (q * 1000000)))
    ∧ (∀ q r : ℚ, _is_number shares = true → shares.toFloat = .fin q → 0 < q → q < 1000000 →
        _is_number net_income = true → net_income.toFloat = .fin r → |r| < 100000000 →
        _normalize_shares_for_eps shares net_income = .float (.fin q))
    ∧ (∀ q : ℚ, _is_number shares = true → shares.toFloat = .fin q → 0 < q → 1000000 ≤ q →
        _normalize_shares_for_eps shares net_income = .float (.fin q))
    ∧ (∀ q : ℚ, _is_number shares = true → shares.toFloat = .fin q → 0 < q →
        _is_number net_income = false →
        _normalize_shares_for_eps shares net_income = .float (.fin q)) := by
  refine ⟨?_, ?_, ?_, ?_, ?_, ?_⟩
  · intro h
    simp [_normalize_shares_for_eps, h]
  · intro q hnum hq hle
    simp [_normalize_shares_for_eps, hnum, hq, PyFloat.leQ, hle]
  · intro q r hnum hq h0 hlt hnum2 hr habs
    simp [_normalize_shares_for_eps, hnum, hq, hnum2, hr, PyFloat.leQ, PyFloat.ltQ,
      PyFloat.absGeQ, PyFloat.mulPos, not_le.mpr h0, hlt, habs]
  · intro q r hnum hq h0 hlt hnum2 hr habs
    simp [_normalize_shares_for_eps, hnum, hq, hnum2, hr, PyFloat.leQ, PyFloat.ltQ,
      PyFloat.absGeQ, not_le.mpr h0, hlt, not_le.mpr habs]
  · intro q hnum hq h0 hge
    simp [_normalize_shares_for_eps, hnum, hq, PyFloat.leQ, PyFloat.ltQ,
      not_le.mpr h0, not_lt.mpr hge]
  · intro q hnum hq h0 hnn
    simp [_normalize_shares_for_eps, hnum, hq, hnn, PyFloat.leQ, PyFloat.ltQ,
      not_le.mpr h0]

/-- C5: counterexample to the claim as stated — at net income exactly
100,000,000 the magnitude does not strictly exceed 100,000,000, yet a share
count of 500,000 is still multiplied by 1,000,000 (the source tests `>=`). -/
theorem C5_counterexample :
    _normalize_shares_for_eps (.int 500000) (.int 100000000) = .float (.fin 500000000000)
    ∧ _normalize_shares_for_eps (.int 500000) (.int 100000000) ≠ .float (.fin 500000) := by
  constructor
  · norm_num [_normalize_shares_for_eps, _is_number, PyVal.toFloat, PyFloat.leQ, PyFloat.ltQ,
      PyFloat.absGeQ, PyFloat.mulPos]
  · norm_num [_normalize_shares_for_eps, _is_number, PyVal.toFloat, PyFloat.leQ, PyFloat.ltQ,
      PyFloat.absGeQ, PyFloat.mulPos]

/-- C5: witness — the amended characterization evaluated at concrete inputs. -/
theorem C5_witness :
    _normalize_shares_for_eps (.int 500000) (.int 200000000) = .float (.fin 500000000000)
    ∧ _normalize_shares_for_eps (.int 3000000) (.int 200000000) = .float (.fin 3000000)
    ∧ _normalize_shares_for_eps (.int (-5)) (.int 200000000) = .none_
    ∧ _normalize_shares_for_eps (.str "x") (.int 200000000) = .none_ := by
  refine ⟨?_, ?_, ?_, ?_⟩
  · have h := (C5_normalize_shares (.int 500000) (.int 200000000)).2.2.1 500000 200000000 rfl
      (by norm_num [PyVal.toFloat]) (by norm_num) (by norm_num) rfl
      (by norm_num [PyVal.toFloat]) (by norm_num)
    rw [h]; norm_num
  · exact (C5_normalize_shares (.int 3000000) (.int 200000000)).2.2.2.2.1 3000000 rfl
      (by norm_num [PyVal.toFloat]) (by norm_num) (by norm_num)
  · exact (C5_normalize_shares (.int (-5)) (.int 200000000)).2.1 (-5) rfl
      (by norm_num [PyVal.toFloat]) (by norm_num)
  · exact (C5_normalize_shares (.str "x") (.int 200000000)).1 rfl

/-- C6 (amended): a symbol whose post-dot suffix is in the exchange-suffix
table maps to that currency; a symbol with no dot maps to USD; a symbol whose
post-dot suffix is a single letter that is not an exchange suffix maps to USD
ONLY when the pre-dot base is nonempty and entirely alphabetic (the source also
tests `base.isalpha()`); all other dotted suffixes yield no inference. -/
theorem C6_infer_currency (symbol raw base suffix : String)
    (hraw : raw = pyUpper (pyStrip symbol))
    (hsplit : rsplitLastDot raw = (base, suffix)) :
    (raw = "" → _infer_currency_from_symbol symbol = none)
    ∧ (raw ≠ "" → containsChar raw '.' = false → _infer_currency_from_symbol symbol = some "USD")
    ∧ (∀ c, raw ≠ "" → containsChar raw '.' = true → suffixCurrencyLookup suffix = some c →
        _infer_currency_from_symbol symbol = some c)
    ∧ (raw ≠ "" → containsChar raw '.' = true → suffixCurrencyLookup suffix = none →
        suffix.length = 1 → base ≠ "" → base.data.all Char.isAlpha = true →
        _infer_currency_from_symbol symbol = some "USD")
    ∧ (raw ≠ "" → containsChar raw '.' = true → suffixCurrencyLookup suffix = none →
        ¬(suffix.length = 1 ∧ base ≠ "" ∧ base.data.all Char.isAlpha = true) →
        _infer_currency_from_symbol symbol = none) := by
  subst hraw
  refine ⟨?_, ?_, ?_, ?_, ?_⟩
  · intro h; simp [_infer_currency_from_symbol, h]
  · intro h hdot; simp [_infer_currency_from_symbol, h, hdot]
  · intro c h hdot hlook
    simp [_infer_currency_from_symbol, h, hdot, hsplit, hlook]
  · intro h hdot hlook hlen hbase halpha
    simp [_infer_currency_from_symbol, h, hdot, hsplit, hlook, hlen, hbase, halpha]
  · intro h hdot hlook hneg
    simp [_infer_currency_from_symbol, h, hdot, hsplit, hlook]
    intro h1 h2
    rcases not_and_or.mp hneg with hx | hx
    · exact absurd h1 hx
    · rcases not_and_or.mp hx with hy | hy
      · exact absurd h2 hy
      · simpa using hy

/-- C6: counterexample to the claim as stated — `0700.B` has a single-letter
post-dot suffix that is not an exchange suffix, yet the inference yields no
currency (not USD) because the base `0700` is not alphabetic. -/
theorem C6_counterexample :
    _infer_currency_from_symbol "0700.B" = none
    ∧ (rsplitLastDot "0700.B").2 = "B"
    ∧ ((rsplitLastDot "0700.B").2).length = 1
    ∧ suffixCurrencyLookup "B" = none := by
  refine ⟨?_, ?_, ?_, ?_⟩ <;> decide

/-- C6: witness — the amended characterization at the spec's concrete
examples plus an unrecognized multi-letter suffix. -/
theorem C6_witness :
    _infer_currency_from_symbol "0700.HK" = some "HKD"
    ∧ _infer_currency_from_symbol "NVDA" = some "USD"
    ∧ _infer_currency_from_symbol "BF.B" = some "USD"
    ∧ _infer_currency_from_symbol "7203.XX" = none := by
  refine ⟨?_, ?_, ?_, ?_⟩
  · exact (C6_infer_currency "0700.HK" "0700.HK" "0700" "HK" (by decide) (by decide)).2.2.1 "HKD"
      (by decide) (by decide) (by decide)
  · exact (C6_infer_currency "NVDA" "NVDA" "" "NVDA" (by decide) (by decide)).2.1
      (by decide) (by decide)
  · exact (C6_infer_currency "BF.B" "BF.B" "BF" "B" (by decide) (by decide)).2.2.2.1 (by decide)
      (by decide) (by decide) (by decide) (by decide) (by decide)
  · exact (C6_infer_currency "7203.XX" "7203.XX" "7203" "XX" (by decide) (by decide)).2.2.2.2
      (by decide) (by decide) (by decide) (by decide)

/-- C7: a numeric finite surprise percentage classifies as `beat` exactly when
it exceeds 0.5, as `miss` exactly when it is below -0.5, and as `inline`
otherwise; a non-numeric surprise classifies as `insufficient`. -/
theorem C7_classify_surprise (s : PyVal) (q : ℚ)
    (hnum : _is_number s = true) (hq : s.toFloat = .fin q) :
    (_classify_surprise s = "beat" ↔ 1/2 < q)
    ∧ (_classify_surprise s = "miss" ↔ q < -(1/2))
    ∧ (_classify_surprise s = "inline" ↔ (-(1/2) ≤ q ∧ q ≤ 1/2))
    ∧ (∀ v, _is_number v = false → _classify_surprise v = "insufficient") := by
  have hins : ∀ v, _is_number v = false → _classify_surprise v = "insufficient" := by
    intro v hv; simp [_classify_surprise, hv]
  have main : (_classify_surprise s = "beat" ↔ 1/2 < q)
      ∧ (_classify_surprise s = "miss" ↔ q < -(1/2))
      ∧ (_classify_surprise s = "inline" ↔ (-(1/2) ≤ q ∧ q ≤ 1/2)) := by
    simp only [_classify_surprise, hnum, hq, Bool.not_true, Bool.false_eq_true, if_false,
      PyFloat.gtQ, PyFloat.ltQ, decide_eq_true_eq]
    split_ifs with h1 h2
    · exact ⟨iff_of_true rfl h1, iff_of_false (by decide) (by linarith),
        iff_of_false (by decide) (by rintro ⟨h3, h4⟩; linarith)⟩
    · exact ⟨iff_of_false (by decide) h1, iff_of_true rfl h2,
        iff_of_false (by decide) (by rintro ⟨h3, h4⟩; linarith)⟩
    · exact ⟨iff_of_false (by decide) h1, iff_of_false (by decide) h2,
        iff_of_true rfl ⟨by linarith, by linarith⟩⟩
  exact ⟨main.1, main.2.1, main.2.2, hins⟩

/-- C7: witness — 7.87 beats, -3.0 misses, 0.2 is inline, a string is
insufficient. -/
theorem C7_witness :
    _classify_surprise (.float (.fin (787/100))) = "beat"
    ∧ _classify_surprise (.float (.fin (-3))) = "miss"
    ∧ _classify_surprise (.float (.fin (2/10))) = "inline"
    ∧ _classify_surprise (.str "--") = "insufficient" := by
  refine ⟨?_, ?_, ?_, ?_⟩
  · exact ((C7_classify_surprise (.float (.fin (787/100))) (787/100) rfl rfl).1).mpr (by norm_num)
  · exact ((C7_classify_surprise (.float (.fin (-3))) (-3) rfl rfl).2.1).mpr (by norm_num)
  · exact ((C7_classify_surprise (.float (.fin (2/10))) (2/10) rfl rfl).2.2.1).mpr
      (by constructor <;> norm_num)
  · exact (C7_classify_surprise (.float (.fin 0)) 0 rfl rfl).2.2.2 (.str "--") rfl

/-- C8: for a numeric finite non-zero value the percent change of a value
against itself is 0; the result is null when the base is zero or either
operand is non-numeric; otherwise it is `(new/old - 1) * 100` rounded half to
even at 2 decimals. -/
theorem C8_pct_change (v w : PyVal) :
    (∀ q : ℚ, _is_number v = true → v.toFloat = .fin q → q ≠ 0 →
        _pct_change v v = .float (.fin 0))
    ∧ (_is_number v = false ∨ _is_number w = false ∨ w.toFloat.eqQ 0 = true →
        _pct_change v w = .none_)
    ∧ (∀ a b : ℚ, _is_number v = true → _is_number w = true → v.toFloat = .fin a →
        w.toFloat = .fin b → b ≠ 0 →
        _pct_change v w = .float (.fin (pyRound ((a / b - 1) * 100) 2))) := by
  refine ⟨?_, ?_, ?_⟩
  · intro q hnum hq hq0
    simp only [_pct_change, hnum, hq, Bool.not_true, Bool.false_or, PyFloat.eqQ,
      PyFloat.div, PyFloat.subQ, PyFloat.mulPos, PyFloat.roundTo]
    rw [if_neg, if_neg hq0]
    · norm_num [div_self hq0, pyRound]
    · simp [hq0]
  · intro h
    rcases h with h | h | h
    · simp [_pct_change, h]
    · simp [_pct_change, h]
    · simp [_pct_change, h]
  · intro a b hnv hnw ha hb hb0
    simp only [_pct_change, hnv, hnw, ha, hb, Bool.not_true, Bool.false_or, PyFloat.eqQ,
      PyFloat.div, PyFloat.subQ, PyFloat.mulPos, PyFloat.roundTo]
    rw [if_neg, if_neg hb0]
    simp [hb0]

/-- C8: witness — `pct_change(4, 4) = 0`, a zero base gives null, and
`pct_change(110, 100) = 10`. -/
theorem C8_witness :
    _pct_change (.int 4) (.int 4) = .float (.fin 0)
    ∧ _pct_change (.int 3) (.int 0) = .none_
    ∧ _pct_change (.int 110) (.int 100) = .float (.fin 10) := by
  refine ⟨?_, ?_, ?_⟩
  · exact (C8_pct_change (.int 4) (.int 4)).1 4 rfl (by norm_num [PyVal.toFloat]) (by norm_num)
  · exact (C8_pct_change (.int 3) (.int 0)).2.1
      (Or.inr (Or.inr (by norm_num [PyVal.toFloat, PyFloat.eqQ])))
  · have h := (C8_pct_change (.int 110) (.int 100)).2.2 110 100 rfl rfl
      (by norm_num [PyVal.toFloat]) (by norm_num [PyVal.toFloat]) (by norm_num)
    rw [h]; norm_num [pyRound]

/-- C9: counterexample to the claim as stated — positive infinity is a Python
float that passes the `_is_number` guard (`isinstance` float, not bool, not
NaN), and `_pct_change(inf, inf)` evaluates `inf/inf = nan` and returns NaN. -/
theorem C9_counterexample : _pct_change (.float .inf) (.float .inf) = .float .nan := by rfl

/-- C9 (amended): the numeric helpers are total (the Lean model is a total
function, mirroring that no Python exception escapes: every input path returns
`None` or a float) and, provided neither argument is an infinite float, each of
`_pct_change`, `_to_billions`, `_round` and `_to_bounded_pct` returns `None` or
a finite float and never NaN; booleans and NaN are rejected as non-numeric by
the shared `_is_number` guard.  Infinite inputs can propagate (e.g.
`_pct_change(inf, inf)` is NaN), which is what the counterexample shows. -/
theorem C9_numeric_helpers_total (v w : PyVal) (d : ℕ)
    (hv : v.isInfinite = false) (hw : w.isInfinite = false) :
    isNoneOrFinite (_pct_change v w) ∧ isNoneOrFinite (_to_billions v)
    ∧ isNoneOrFinite (_round v d) ∧ isNoneOrFinite (_to_bounded_pct v w)
    ∧ (∀ b, _is_number (.bool b) = false) ∧ _is_number (.float .nan) = false := by
  have hfin : ∀ u : PyVal, u.isInfinite = false → _is_number u = true →
      ∃ q : ℚ, u.toFloat = .fin q := by
    intro u hu hn
    cases u with
    | int n => exact ⟨n, rfl⟩
    | float f =>
      cases f with
      | fin q => exact ⟨q, rfl⟩
      | inf => simp [PyVal.isInfinite] at hu
      | ninf => simp [PyVal.isInfinite] at hu
      | nan => simp [_is_number] at hn
    | none_ => simp [_is_number] at hn
    | bool b => simp [_is_number] at hn
    | str s => simp [_is_number] at hn
  refine ⟨?_, ?_, ?_, ?_, fun b => rfl, rfl⟩
  · by_cases h1 : _is_number v = true
    · by_cases h2 : _is_number w = true
      · obtain ⟨a, ha⟩ := hfin v hv h1
        obtain ⟨b, hb⟩ := hfin w hw h2
        by_cases hb0 : b = 0
        · left; simp [_pct_change, hb, hb0, PyFloat.eqQ]
        · right
          refine ⟨pyRound ((a / b - 1) * 100) 2, ?_⟩
          simp only [_pct_change, h1, h2, ha, hb, Bool.not_true, Bool.false_or, PyFloat.eqQ,
            PyFloat.div, PyFloat.subQ, PyFloat.mulPos, PyFloat.roundTo]
          rw [if_neg, if_neg hb0]
          simp [hb0]
      · left
        have h2x : _is_number w = false := by simpa using h2
        simp [_pct_change, h2x]
    · left
      have h1x : _is_number v = false := by simpa using h1
      simp [_pct_change, h1x]
  · by_cases h1 : _is_number v = true
    · obtain ⟨a, ha⟩ := hfin v hv h1
      right
      exact ⟨pyRound (a / 1000000000) 2,
        by simp [_to_billions, h1, ha, PyFloat.divPos, PyFloat.roundTo]⟩
    · left
      have h1x : _is_number v = false := by simpa using h1
      simp [_to_billions, h1x]
  · by_cases h1 : _is_number v = true
    · obtain ⟨a, ha⟩ := hfin v hv h1
      right
      exact ⟨pyRound a d, by simp [_round, h1, ha, PyFloat.roundTo]⟩
    · left
      have h1x : _is_number v = false := by simpa using h1
      simp [_round, h1x]
  · by_cases h1 : _is_number v = true
    · by_cases h2 : _is_number w = true
      · obtain ⟨a, ha⟩ := hfin v hv h1
        obtain ⟨b, hb⟩ := hfin w hw h2
        by_cases hb0 : b = 0
        · left; simp [_to_bounded_pct, hb, hb0, PyFloat.eqQ]
        · right
          refine ⟨pyRound (a / b * 100) 2, ?_⟩
          have hdivq : PyFloat.div (PyFloat.fin a) (PyFloat.fin b) = .fin (a / b) := by
            simp [PyFloat.div, hb0]
          have hnumfin : ∀ x : ℚ, _is_number (.float (.fin x)) = true := fun x => rfl
          have htf : ∀ x : ℚ, (PyVal.float (PyFloat.fin x)).toFloat = .fin x := fun x => rfl
          simp [_to_bounded_pct, h1, h2, ha, hb, PyFloat.eqQ, hb0, hdivq, PyFloat.mulPos,
            _round, hnumfin, htf, PyFloat.roundTo]
      · left
        have h2x : _is_number w = false := by simpa using h2
        simp [_to_bounded_pct, h2x]
    · left
      have h1x : _is_number v = false := by simpa using h1
      simp [_to_bounded_pct, h1x]

/-- C9: witness — the amended totality statement evaluated at finite inputs. -/
theorem C9_witness :
    isNoneOrFinite (_pct_change (.int 3) (.int 2)) ∧ isNoneOrFinite (_to_billions (.int 3))
    ∧ isNoneOrFinite (_round (.int 3) 2) ∧ isNoneOrFinite (_to_bounded_pct (.int 3) (.int 2))
    ∧ (∀ b, _is_number (.bool b) = false) ∧ _is_number (.float .nan) = false :=
  C9_numeric_helpers_total (.int 3) (.int 2) 2 rfl rfl

/-- C2: the cache round-trip — a write followed by a read of the same symbol
within the TTL window returns the financial/ai_financial_context payload; a
read with non-positive TTL returns null regardless of the store (and, the read
being pure, the stored row survives and is still there after the write); a read
older than the TTL, or with an unparseable timestamp, or with an unparseable
or non-dict payload, returns null; a write upserts keyed by the normalized
symbol, always overwriting the previous row. -/
theorem C2_financial_cache (db : CacheDb) (now now2 : ℚ) (symbol : String) (F C : Json)
    (hsym : normalizeCacheSymbol symbol ≠ "")
    (hF : F.isObj = true) (hC : C.isObj = true) :
    (now2 - now ≤ 12 →
      get_cached_financial_bundle (set_cached_financial_bundle db now symbol F C) now2 symbol
        (some 12) = some (Json.obj [("financial", F), ("ai_financial_context", C)]))
    ∧ (∀ t : ℚ, t ≤ 0 → ∀ db2 : CacheDb,
        get_cached_financial_bundle db2 now2 symbol (some t) = none)
    ∧ (set_cached_financial_bundle db now symbol F C) (normalizeCacheSymbol symbol) =
        some { payload := some (Json.obj [("financial", F), ("ai_financial_context", C)]),
               updatedAt := some now }
    ∧ (∀ t : ℚ, 0 < t → t < now2 - now →
        get_cached_financial_bundle (set_cached_financial_bundle db now symbol F C) now2 symbol
          (some t) = none)
    ∧ (∀ row t, db (normalizeCacheSymbol symbol) = some row → row.updatedAt = none →
        get_cached_financial_bundle db now2 symbol (some t) = none)
    ∧ (∀ row t ts, db (normalizeCacheSymbol symbol) = some row → row.updatedAt = some ts →
        row.payload = none → get_cached_financial_bundle db now2 symbol (some t) = none)
    ∧ (∀ F2 C2 n2, F2.isObj = true → C2.isObj = true →
        (set_cached_financial_bundle (set_cached_financial_bundle db now symbol F C) n2 symbol
          F2 C2) (normalizeCacheSymbol symbol) =
          some { payload := some (Json.obj [("financial", F2), ("ai_financial_context", C2)]),
                 updatedAt := some n2 }) := by
  refine ⟨?_, ?_, ?_, ?_, ?_, ?_, ?_⟩
  · intro hfresh
    simp [get_cached_financial_bundle, set_cached_financial_bundle, ttlNonPos, hsym, hF, hC,
      hfresh]
  · intro t ht db2
    simp [get_cached_financial_bundle, ttlNonPos, ht]
  · simp [set_cached_financial_bundle, hsym, hF, hC]
  · intro t ht hstale
    simp [get_cached_financial_bundle, set_cached_financial_bundle, ttlNonPos, hsym, hF, hC,
      not_le.mpr ht, not_le.mpr hstale]
  · intro row t hrow hupd
    by_cases ht : t ≤ 0
    · simp [get_cached_financial_bundle, ttlNonPos, ht]
    · simp [get_cached_financial_bundle, ttlNonPos, ht, hsym, hrow, hupd]
  · intro row t ts hrow hupd hpay
    by_cases ht : t ≤ 0
    · simp [get_cached_financial_bundle, ttlNonPos, ht]
    · by_cases hf : now2 - ts ≤ t
      · simp [get_cached_financial_bundle, ttlNonPos, ht, hsym, hrow, hupd, hpay, hf]
      · simp [get_cached_financial_bundle, ttlNonPos, ht, hsym, hrow, hupd, hf]
  · intro F2 C2 n2 hF2 hC2
    simp [set_cached_financial_bundle, hsym, hF2, hC2]

/-- C2: witness — write NVDA then read within TTL returns the payload, and a
ttl of 0 reads nothing. -/
theorem C2_witness :
    get_cached_financial_bundle
      (set_cached_financial_bundle (fun _ => none) 0 "NVDA"
        (Json.obj [("a", Json.num 1)]) (Json.obj [])) 1 "NVDA" (some 12)
      = some (Json.obj [("financial", Json.obj [("a", Json.num 1)]),
          ("ai_financial_context", Json.obj [])])
    ∧ get_cached_financial_bundle
      (set_cached_financial_bundle (fun _ => none) 0 "NVDA"
        (Json.obj [("a", Json.num 1)]) (Json.obj [])) 1 "NVDA" (some 0) = none := by
  constructor
  · exact (C2_financial_cache (fun _ => none) 0 1 "NVDA" (Json.obj [("a", Json.num 1)])
      (Json.obj []) (by decide) rfl rfl).1 (by norm_num)
  · exact (C2_financial_cache (fun _ => none) 0 1 "NVDA" (Json.obj [("a", Json.num 1)])
      (Json.obj []) (by decide) rfl rfl).2.1 0 (by norm_num) _

/-- C3: the latest usable column chosen by the income-statement builder is the
first column, iterating newest-first over the descending-sorted period columns,
in which at least one of revenue, gross profit, operating income or net income
is numeric (columns where all four are missing are skipped); the iteration
order is genuinely newest-first: the sorted column list is a
descending-ordered permutation of the frame columns. -/
theorem C3_latest_usable_column (df : Frame) (c : ℤ)
    (h : (_statement_columns_sorted df).find? (coreFieldPresent df) = some c) :
    latestUsableColumn df = some c
    ∧ List.Pairwise (fun a b : ℤ => b ≤ a) (_statement_columns_sorted df)
    ∧ (df.isEmptyDf = false → (_statement_columns_sorted df).Perm df.columns) := by
  have hpick : ∀ (cs : List ℤ) (acc : ℤ),
      pickLatestCol df cs acc = ((cs.find? (coreFieldPresent df)).getD acc) := by
    intro cs
    induction cs with
    | nil => intro acc; simp [pickLatestCol]
    | cons x xs ih =>
      intro acc
      by_cases hx : coreFieldPresent df x = true
      · simp [pickLatestCol, hx, List.find?_cons_of_pos _ hx]
      · have hx2 : coreFieldPresent df x = false := by simpa using hx
        simp [pickLatestCol, hx2, List.find?_cons_of_neg, ih]
  refine ⟨?_, ?_, ?_⟩
  · rcases hcs : _statement_columns_sorted df with _ | ⟨c0, rest⟩
    · rw [hcs] at h; simp at h
    · rw [hcs] at h
      simp [latestUsableColumn, hcs, hpick, h]
  · have htot : ∀ x y : ℤ, decide (y ≤ x) = true ∨ decide (x ≤ y) = true := by
      intro x y
      simpa using le_total y x
    have htrans : ∀ x y z : ℤ, decide (y ≤ x) = true → decide (z ≤ y) = true →
        decide (z ≤ x) = true := by
      intro x y z h1 h2
      simp only [decide_eq_true_eq] at h1 h2 ⊢
      exact le_trans h2 h1
    by_cases he : df.isEmptyDf = true
    · simp [_statement_columns_sorted, he]
    · have he2 : df.isEmptyDf = false := by simpa using he
      simp only [_statement_columns_sorted, he2, Bool.false_eq_true, if_false]
      have hs := stableSortBy_sorted (fun a b : ℤ => decide (b ≤ a)) htot htrans df.columns
      exact hs.imp (fun hab => by simpa using hab)
  · intro hne
    simp only [_statement_columns_sorted, hne, Bool.false_eq_true, if_false]
    exact stableSortBy_perm _ _

/-- C3: witness — in the spec example frame the newest column 2025-12-31 (day
20453) has only Diluted EPS populated, so the latest usable column resolves to
2025-09-30 (day 20361). -/
theorem C3_witness :
    latestUsableColumn stubLatestQuarterFrame = some 20361
    ∧ coreFieldPresent stubLatestQuarterFrame 20453 = false
    ∧ coreFieldPresent stubLatestQuarterFrame 20361 = true := by
  refine ⟨?_, ?_, ?_⟩
  · exact (C3_latest_usable_column stubLatestQuarterFrame 20361 (by decide)).1
  · decide
  · decide

/-- C4: for quarterly statements the year-over-year comparison column is drawn
from the non-head columns dated 250 to 500 days before the latest column,
preferring the candidate closest to exactly 365 days; when no column falls in
that window the fifth-most-recent column is used (so none when fewer than 5
columns exist); for annual statements the second-newest column is used. -/
theorem C4_yoy_column (columns : List ℤ) (latest : ℤ) (hne : columns ≠ []) :
    ((∃ c2 ∈ columns.tail, 250 ≤ latest - c2 ∧ latest - c2 ≤ 500) →
      ∃ c, _find_same_period_last_year columns (some latest) = some c ∧
        c ∈ columns.tail ∧ 250 ≤ latest - c ∧ latest - c ≤ 500 ∧
        (∀ c2 ∈ columns.tail, 250 ≤ latest - c2 → latest - c2 ≤ 500 →
          (latest - c - 365).natAbs ≤ (latest - c2 - 365).natAbs))
    ∧ ((∀ c2 ∈ columns.tail, ¬(250 ≤ latest - c2 ∧ latest - c2 ≤ 500)) →
        _find_same_period_last_year columns (some latest) = columns.get? 4)
    ∧ (columns.length < 5 → columns.get? 4 = none)
    ∧ (∀ h5 : 4 < columns.length, columns.get? 4 = some (columns.get ⟨4, h5⟩))
    ∧ selectPrevCol columns (some latest) "annual" =
        (if 2 ≤ columns.length then columns.get? 1 else none) := by
  have hEmpty : columns.isEmpty = false := by
    cases columns with
    | nil => exact absurd rfl hne
    | cons a l => rfl
  have htot : ∀ a b : ℕ × ℤ × ℤ, candLe a b = true ∨ candLe b a = true := by
    intro a b
    simp only [candLe, Bool.or_eq_true, Bool.and_eq_true, decide_eq_true_eq]
    rcases lt_trichotomy a.1 b.1 with h | h | h
    · exact Or.inl (Or.inl h)
    · rcases le_total a.2.1 b.2.1 with h2 | h2
      · exact Or.inl (Or.inr ⟨h, h2⟩)
      · exact Or.inr (Or.inr ⟨h.symm, h2⟩)
    · exact Or.inr (Or.inl h)
  have htrans : ∀ a b c : ℕ × ℤ × ℤ, candLe a b = true → candLe b c = true →
      candLe a c = true := by
    intro a b c h1 h2
    simp only [candLe, Bool.or_eq_true, Bool.and_eq_true, decide_eq_true_eq] at h1 h2 ⊢
    rcases h1 with h1 | ⟨h1e, h1le⟩ <;> rcases h2 with h2 | ⟨h2e, h2le⟩
    · exact Or.inl (lt_trans h1 h2)
    · exact Or.inl (h2e ▸ h1)
    · exact Or.inl (h1e ▸ h2)
    · exact Or.inr ⟨h1e.trans h2e, le_trans h1le h2le⟩
  have hmem : ∀ t : ℕ × ℤ × ℤ,
      t ∈ columns.tail.filterMap (fun col =>
        if 250 ≤ latest - col ∧ latest - col ≤ 500 then
          some ((latest - col - 365).natAbs, latest - col, col) else none) ↔
      t.2.2 ∈ columns.tail ∧ 250 ≤ latest - t.2.2 ∧ latest - t.2.2 ≤ 500 ∧
        t = ((latest - t.2.2 - 365).natAbs, latest - t.2.2, t.2.2) := by
    intro t
    rw [List.mem_filterMap]
    constructor
    · rintro ⟨col, hcol, hf⟩
      by_cases hw : 250 ≤ latest - col ∧ latest - col ≤ 500
      · rw [if_pos hw] at hf
        cases hf
        exact ⟨hcol, hw.1, hw.2, rfl⟩
      · rw [if_neg hw] at hf; cases hf
    · rintro ⟨hmem2, h1, h2, ht⟩
      exact ⟨t.2.2, hmem2, by rw [if_pos ⟨h1, h2⟩, ← ht]⟩
  refine ⟨?_, ?_, ?_, ?_, ?_⟩
  · rintro ⟨c2, hc2mem, hc2w⟩
    set cands := columns.tail.filterMap (fun col =>
        if 250 ≤ latest - col ∧ latest - col ≤ 500 then
          some ((latest - col - 365).natAbs, latest - col, col) else none) with hcands
    have hc2in : ((latest - c2 - 365).natAbs, latest - c2, c2) ∈ cands := by
      rw [hcands, hmem]
      exact ⟨hc2mem, hc2w.1, hc2w.2, rfl⟩
    have hperm := stableSortBy_perm candLe cands
    rcases hsorted : stableSortBy candLe cands with _ | ⟨t, ts⟩
    · exfalso
      rw [hsorted] at hperm
      rw [hperm.symm.eq_nil] at hc2in
      cases hc2in
    · have htmem : t ∈ cands := by
        rw [← hperm.mem_iff]
        rw [hsorted]
        exact List.mem_cons_self t ts
      have htstruct := (hmem t).mp htmem
      refine ⟨t.2.2, ?_, htstruct.1, htstruct.2.1, htstruct.2.2.1, ?_⟩
      · simp only [_find_same_period_last_year, hEmpty, Bool.false_eq_true, if_false]
        rw [← hcands, hsorted]
      · intro d hdmem hd1 hd2
        have hdin : ((latest - d - 365).natAbs, latest - d, d) ∈ cands := by
          rw [hcands, hmem]
          exact ⟨hdmem, hd1, hd2, rfl⟩
        have hdin2 : ((latest - d - 365).natAbs, latest - d, d) ∈ stableSortBy candLe cands := by
          rw [hperm.mem_iff]
          exact hdin
        rw [hsorted] at hdin2
        have hsortpw := stableSortBy_sorted candLe htot htrans cands
        rw [hsorted] at hsortpw
        have hle := sorted_head_min candLe htot t ts hsortpw _ hdin2
        have ht1 : t.1 = (latest - t.2.2 - 365).natAbs := by
          conv_lhs => rw [htstruct.2.2.2]
        rw [candLe, Bool.or_eq_true, Bool.and_eq_true, decide_eq_true_eq, decide_eq_true_eq] at hle
        rcases hle with hlt | ⟨heq, _⟩
        · rw [← ht1]; exact le_of_lt hlt
        · rw [← ht1, heq]
  · intro hnone
    have hnil : columns.tail.filterMap (fun col =>
        if 250 ≤ latest - col ∧ latest - col ≤ 500 then
          some ((latest - col - 365).natAbs, latest - col, col) else none) = [] := by
      rw [List.filterMap_eq_nil_iff]
      intro col hcol
      rw [if_neg (hnone col hcol)]
    simp only [_find_same_period_last_year, hEmpty, Bool.false_eq_true, if_false, hnil,
      stableSortBy]
  · intro h5
    exact List.get?_eq_none.mpr (by omega)
  · intro h5
    exact List.get?_eq_get h5
  · simp [selectPrevCol]

/-- C4: witness — with columns at days [1000, 640, 270, 100, 50] and latest
1000, the 360-day-old column 640 is chosen; with no column in the 250-500 day
window and fewer than five columns the result is none; the annual path takes
the second-newest column. -/
theorem C4_witness :
    (∃ c, _find_same_period_last_year [1000, 640, 270, 100, 50] (some 1000) = some c ∧
      c ∈ ([1000, 640, 270, 100, 50] : List ℤ).tail ∧ 250 ≤ 1000 - c ∧ 1000 - c ≤ 500 ∧
      (∀ c2 ∈ ([1000, 640, 270, 100, 50] : List ℤ).tail, 250 ≤ 1000 - c2 → 1000 - c2 ≤ 500 →
        (1000 - c - 365).natAbs ≤ (1000 - c2 - 365).natAbs))
    ∧ _find_same_period_last_year [1000, 640, 270, 100, 50] (some 1000) = some 640
    ∧ _find_same_period_last_year [1000, 995, 990, 985] (some 1000) = none
    ∧ selectPrevCol [1000, 900, 800] (some 1000) "annual" = some 900 := by
  refine ⟨?_, ?_, ?_, ?_⟩
  · exact (C4_yoy_column [1000, 640, 270, 100, 50] 1000 (by decide)).1
      ⟨640, by decide, by decide, by decide⟩
  · decide
  · have h := (C4_yoy_column [1000, 995, 990, 985] 1000 (by decide)).2.1 (by decide)
    rw [h]; rfl
  · have h := (C4_yoy_column [1000, 900, 800] 1000 (by decide)).2.2.2.2
    rw [h]; rfl

/-- A value classified `beat` passed the numeric guard. -/
theorem classify_beat_is_number (v : PyVal) (h : _classify_surprise v = "beat") :
    _is_number v = true := by
  by_cases hn : _is_number v = true
  · exact hn
  · have hx : _is_number v = false := by simpa using hn
    simp [_classify_surprise, hx] at h

/-- The beat/miss/inline buckets partition any list of surprise values. -/
theorem classify_partition (l : List PyVal) :
    (l.filter (fun v => decide (_classify_surprise v = "beat"))).length
    + (l.filter (fun v => decide (_classify_surprise v = "miss"))).length
    + (l.filter (fun v =>
        decide (_classify_surprise v ≠ "beat" ∧ _classify_surprise v ≠ "miss"))).length
    = l.length := by
  induction l with
  | nil => simp
  | cons h t ih =>
    rw [List.filter_cons, List.filter_cons, List.filter_cons]
    by_cases hb : _classify_surprise h = "beat"
    · rw [if_pos (by simp [hb]), if_neg (by simp [hb]), if_neg (by simp [hb])]
      simp only [List.length_cons]
      omega
    · by_cases hm : _classify_surprise h = "miss"
      · rw [if_neg (by simp [hm, hb]), if_pos (by simp [hm]), if_neg (by simp [hm])]
        simp only [List.length_cons]
        omega
      · rw [if_neg (by simp [hb]), if_neg (by simp [hm]), if_pos (by simp [hb, hm])]
        simp only [List.length_cons]
        omega

/-- The trailing beat streak never exceeds the number of beats in the list. -/
theorem beatStreak_le_countP (l : List BMRecord) :
    beatStreakCount l
      ≤ l.countP (fun r => decide (_classify_surprise r.surprise_pct = "beat")) := by
  induction l with
  | nil => simp [beatStreakCount]
  | cons r t ih =>
    rw [List.countP_cons]
    by_cases hb : _classify_surprise r.surprise_pct = "beat"
    · rw [beatStreakCount, if_pos hb, if_pos (by simp [hb])]
      omega
    · rw [beatStreakCount, if_neg hb]
      omega

/-- The beat count over the numeric-filtered surprise values equals the count
of beat-classified records. -/
theorem beat_count_eq_countP (recent : List BMRecord) :
    (((recent.filter (fun r => _is_number r.surprise_pct)).map (fun r => r.surprise_pct)).filter
      (fun v => decide (_classify_surprise v = "beat"))).length
    = recent.countP (fun r => decide (_classify_surprise r.surprise_pct = "beat")) := by
  rw [List.filter_map, List.length_map, List.filter_filter]
  rw [← List.countP_eq_length_filter]
  apply List.countP_congr
  intro r hr
  simp only [Function.comp]
  by_cases hb : _classify_surprise r.surprise_pct = "beat"
  · simp [hb, classify_beat_is_number r.surprise_pct hb]
  · simp [hb]

/-- Invariants of the counting core of `_build_beat_miss_snapshot` over an
arbitrary `recent` window. -/
theorem beat_miss_core_invariants (recent : List BMRecord) (hlen : recent.length ≤ 4) :
    ((((recent.filter (fun r => _is_number r.surprise_pct)).map fun r => r.surprise_pct).filter
        (fun v => decide (_classify_surprise v = "beat"))).length
      + (((recent.filter (fun r => _is_number r.surprise_pct)).map fun r => r.surprise_pct).filter
        (fun v => decide (_classify_surprise v = "miss"))).length
      + (((recent.filter (fun r => _is_number r.surprise_pct)).map fun r => r.surprise_pct).filter
        (fun v => decide (_classify_surprise v ≠ "beat" ∧ _classify_surprise v ≠ "miss"))).length
      = ((recent.filter (fun r => _is_number r.surprise_pct)).map fun r => r.surprise_pct).length)
    ∧ ((recent.filter (fun r => _is_number r.surprise_pct)).map fun r => r.surprise_pct).length ≤ 4
    ∧ (∀ v ∈ (recent.filter (fun r => _is_number r.surprise_pct)).map fun r => r.surprise_pct,
        _is_number v = true)
    ∧ beatStreakCount recent.reverse
        ≤ (((recent.filter (fun r => _is_number r.surprise_pct)).map
            fun r => r.surprise_pct).filter
          (fun v => decide (_classify_surprise v = "beat"))).length := by
  refine ⟨classify_partition _, ?_, ?_, ?_⟩
  · rw [List.length_map]
    exact le_trans (List.length_filter_le _ _) hlen
  · intro v hv
    rw [List.mem_map] at hv
    obtain ⟨r, hr, rfl⟩ := hv
    exact (List.mem_filter.mp hr).2
  · rw [beat_count_eq_countP]
    refine le_trans (beatStreak_le_countP recent.reverse) ?_
    rw [List.countP_eq_length_filter, List.countP_eq_length_filter, List.filter_reverse,
      List.length_reverse]

/-- C10: for every earnings-history frame, the beat/miss snapshot satisfies:
beat, miss and inline counts sum to the length of the numeric surprise history,
that history has at most 4 entries, every entry is numeric, and the trailing
beat streak never exceeds the beat count. -/
theorem C10_beat_miss_invariants (history_df : List (String × SeriesRow)) :
    (_build_beat_miss_snapshot history_df).beat_count_4q
      + (_build_beat_miss_snapshot history_df).miss_count_4q
      + (_build_beat_miss_snapshot history_df).inline_count_4q
      = (_build_beat_miss_snapshot history_df).history_surprise_pct_4q.length
    ∧ (_build_beat_miss_snapshot history_df).history_surprise_pct_4q.length ≤ 4
    ∧ (∀ v ∈ (_build_beat_miss_snapshot history_df).history_surprise_pct_4q,
        _is_number v = true)
    ∧ (_build_beat_miss_snapshot history_df).beat_streak_4q
        ≤ (_build_beat_miss_snapshot history_df).beat_count_4q := by
  simp only [_build_beat_miss_snapshot]
  split
  · simp [emptyBeatMiss]
  · split
    · simp [emptyBeatMiss]
    · split
      · simp [emptyBeatMiss]
      · rename_i latest hlast
        simp only
        apply beat_miss_core_invariants
        rw [List.length_drop]
        omega

/-- A list keeping an element that fails the predicate does not drop to nil. -/
theorem dropWhile_ne_nil_of_exists (p : Char → Bool) (l : List Char)
    (h : ∃ c ∈ l, p c = false) : l.dropWhile p ≠ [] := by
  induction l with
  | nil => obtain ⟨c, hc, _⟩ := h; cases hc
  | cons x xs ih =>
    rw [List.dropWhile_cons]
    by_cases hx : p x = true
    · rw [if_pos hx]
      apply ih
      obtain ⟨c, hc, hpc⟩ := h
      rcases List.mem_cons.mp hc with rfl | hc2
      · rw [hx] at hpc; cases hpc
      · exact ⟨c, hc2, hpc⟩
    · rw [if_neg hx]
      simp

/-- An element failing the predicate survives `dropWhile`. -/
theorem mem_of_mem_dropWhile (p : Char → Bool) (l : List Char)
    (h : ∃ c ∈ l, p c = false) : ∃ c ∈ l.dropWhile p, p c = false := by
  induction l with
  | nil => obtain ⟨c, hc, _⟩ := h; cases hc
  | cons x xs ih =>
    rw [List.dropWhile_cons]
    by_cases hx : p x = true
    · rw [if_pos hx]
      apply ih
      obtain ⟨c, hc, hpc⟩ := h
      rcases List.mem_cons.mp hc with rfl | hc2
      · rw [hx] at hpc; cases hpc
      · exact ⟨c, hc2, hpc⟩
    · rw [if_neg hx]
      obtain ⟨c, hc, hpc⟩ := h
      by_cases hcx : c = x
      · subst hcx
        exact ⟨c, List.mem_cons_self c xs, hpc⟩
      · exact ⟨x, List.mem_cons_self x xs, by simpa using hx⟩

/-- Stripping whitespace from a list holding a non-whitespace character leaves
it nonempty. -/
theorem pyStripList_ne_nil (l : List Char) (h : ∃ c ∈ l, Char.isWhitespace c = false) :
    pyStripList Char.isWhitespace l ≠ [] := by
  unfold pyStripList
  intro hnil
  have h1 := mem_of_mem_dropWhile Char.isWhitespace l h
  have h2 : ∃ c ∈ (l.dropWhile Char.isWhitespace).reverse, Char.isWhitespace c = false := by
    obtain ⟨c, hc, hpc⟩ := h1
    exact ⟨c, List.mem_reverse.mpr hc, hpc⟩
  have h3 := dropWhile_ne_nil_of_exists Char.isWhitespace _ h2
  rw [List.reverse_eq_nil_iff] at hnil
  exact h3 hnil

/-- The error text of the structured error record is never empty: it starts
with the literal failure prefix. -/
theorem errorText_ne_empty (exc : PyExc) : errorText exc ≠ "" := by
  unfold errorText pyStrip
  intro h
  have hd : String.mk (pyStripList Char.isWhitespace
      ("抓取失败: " ++ exc.typeName ++ ": " ++ exc.message).data) = "" := h
  have : pyStripList Char.isWhitespace
      ("抓取失败: " ++ exc.typeName ++ ": " ++ exc.message).data = [] :=
    congrArg String.data hd
  apply pyStripList_ne_nil _ ?_ this
  refine ⟨'抓', ?_, by decide⟩
  rw [String.data_append, String.data_append, String.data_append]
  exact List.mem_append.mpr (Or.inl (List.mem_append.mpr (Or.inl
    (List.mem_append.mpr (Or.inl (by decide))))))

/-- Evaluating the function-valued dict built by the fold: the last insertion
for a key wins (first match in the reversed pair list). -/
theorem orderDict_foldl (ps : List (ℕ × String)) (init : String → Option ℕ) (s : String) :
    (ps.foldl (fun m p => fun t => if t = p.2 then some p.1 else m t) init) s =
    (match ps.reverse.find? (fun p => decide (s = p.2)) with
     | some p => some p.1
     | none => init s) := by
  induction ps generalizing init with
  | nil => simp
  | cons p ps ih =>
    rw [List.foldl_cons, ih, List.reverse_cons, List.find?_append]
    rcases hf : ps.reverse.find? (fun q => decide (s = q.2)) with _ | q
    · rw [hf]
      by_cases hs : s = p.2
      · simp [List.find?, hs]
      · simp [List.find?, hs]
    · rw [hf]
      simp

/-- `find?` returns the unique element satisfying the predicate. -/
theorem find?_eq_of_unique {α : Type} (pred : α → Bool) (l : List α) (a : α)
    (ha : a ∈ l) (hpa : pred a = true) (huniq : ∀ x ∈ l, pred x = true → x = a) :
    l.find? pred = some a := by
  induction l with
  | nil => cases ha
  | cons y t ih =>
    by_cases hy : pred y = true
    · have := huniq y (List.mem_cons_self y t) hy
      subst this
      exact List.find?_cons_of_pos t hy
    · rw [List.find?_cons_of_neg t hy]
      apply ih
      · rcases List.mem_cons.mp ha with rfl | h2
        · exact absurd hpa hy
        · exact h2
      · intro x hx hpx
        exact huniq x (List.mem_cons_of_mem y hx) hpx

/-- For duplicate-free symbols, the sort key of the i-th requested symbol is i. -/
theorem orderKey_get (symbols : List String) (hnodup : symbols.Nodup) (i : ℕ)
    (hi : i < symbols.length) :
    orderKey symbols (symbols.get ⟨i, hi⟩) = i := by
  unfold orderKey orderDict
  rw [orderDict_foldl]
  have hfind : symbols.enum.reverse.find?
      (fun p => decide (symbols.get ⟨i, hi⟩ = p.2)) = some (i, symbols.get ⟨i, hi⟩) := by
    apply find?_eq_of_unique
    · rw [List.mem_reverse, List.mem_enum_iff_getElem?]
      simp [List.getElem?_eq_getElem hi]
    · simp
    · rintro ⟨j, t⟩ hmem hpred
      rw [List.mem_reverse, List.mem_enum_iff_getElem?] at hmem
      simp only [decide_eq_true_eq] at hpred
      obtain ⟨hj, hjt⟩ := List.getElem?_eq_some_iff.mp hmem
      have hij : symbols.get ⟨j, hj⟩ = symbols.get ⟨i, hi⟩ := by
        rw [← hpred] at hjt
        simpa [List.get_eq_getElem] using hjt
      have : (⟨j, hj⟩ : Fin symbols.length) = ⟨i, hi⟩ :=
        (List.Nodup.get_inj_iff hnodup).mp hij
      have hji : j = i := by simpa using this
      subst hji
      simp [← hpred, ← hjt]
  rw [hfind]
  rfl

/-- C1: for every requested symbol list (duplicate-free, as produced by the
route's dedup step) and every completion order, `fetch_multiple_stocks` returns
exactly one bundle per requested symbol, re-sorted into the requested order: it
equals the map of the per-symbol unit over the requested list.  A unit whose
fetch raises yields the structured error record, whose `error` string is
non-empty and carries the exception type and message and whose sub-objects are
empty shells; a unit whose fetch succeeds has its bundle returned unchanged. -/
theorem C1_fetch_multiple_stocks (fetch : String → Except PyExc Bundle)
    (symbols completion : List String)
    (hnodup : symbols.Nodup) (hperm : completion.Perm symbols)
    (hsym : ∀ s b, fetch s = .ok b → b.symbol = s) :
    fetch_multiple_stocks fetch symbols completion = symbols.map (settleUnit fetch)
    ∧ (∀ s b, fetch s = .ok b → settleUnit fetch s = b)
    ∧ (∀ s exc, fetch s = .error exc →
        settleUnit fetch s = errorBundle s exc
        ∧ (errorBundle s exc).error = some (errorText exc)
        ∧ errorText exc ≠ ""
        ∧ (errorBundle s exc).news = Json.arr []
        ∧ (errorBundle s exc).expectation_guidance = Json.obj []) := by
  refine ⟨?_, ?_, ?_⟩
  · have hsettle : ∀ s, (settleUnit fetch s).symbol = s := by
      intro s
      unfold settleUnit
      cases hf : fetch s with
      | ok b => exact hsym s b hf
      | error e => rfl
    have htot : ∀ x y : Bundle,
        (decide (orderKey symbols x.symbol ≤ orderKey symbols y.symbol)) = true ∨
        (decide (orderKey symbols y.symbol ≤ orderKey symbols x.symbol)) = true := by
      intro x y
      simp only [decide_eq_true_eq]
      exact Nat.le_total _ _
    have htrans : ∀ x y z : Bundle,
        (decide (orderKey symbols x.symbol ≤ orderKey symbols y.symbol)) = true →
        (decide (orderKey symbols y.symbol ≤ orderKey symbols z.symbol)) = true →
        (decide (orderKey symbols x.symbol ≤ orderKey symbols z.symbol)) = true := by
      intro x y z h1 h2
      simp only [decide_eq_true_eq] at h1 h2 ⊢
      omega
    have hperm2 : (completion.map (settleUnit fetch)).Perm (symbols.map (settleUnit fetch)) :=
      hperm.map (settleUnit fetch)
    have hsortperm := stableSortBy_perm
      (fun b1 b2 => decide (orderKey symbols b1.symbol ≤ orderKey symbols b2.symbol))
      (completion.map (settleUnit fetch))
    have hsorted := stableSortBy_sorted
      (fun b1 b2 => decide (orderKey symbols b1.symbol ≤ orderKey symbols b2.symbol))
      htot htrans (completion.map (settleUnit fetch))
    have htarget : (symbols.map (settleUnit fetch)).Pairwise
        (fun b1 b2 => orderKey symbols b1.symbol < orderKey symbols b2.symbol) := by
      rw [List.pairwise_iff_getElem]
      intro i j hi hj hij
      rw [List.length_map] at hi hj
      rw [List.getElem_map, List.getElem_map, hsettle, hsettle]
      have h1 := orderKey_get symbols hnodup i hi
      have h2 := orderKey_get symbols hnodup j hj
      rw [List.get_eq_getElem] at h1 h2
      rw [h1, h2]
      exact hij
    exact eq_of_perm_sorted_strict (fun b => orderKey symbols b.symbol) _ _
      (hsortperm.trans hperm2)
      (hsorted.imp (fun hab => by simpa using hab))
      htarget
  · intro s b hb
    simp [settleUnit, hb]
  · intro s exc he
    exact ⟨by simp [settleUnit, he], rfl, errorText_ne_empty exc, rfl, rfl⟩

/-- C1: witness — a two-symbol batch completing in reverse order, where the
unit for BBB raises: the result is re-sorted to requested order and BBB's slot
holds the error record with a non-empty error. -/
theorem C1_witness :
    fetch_multiple_stocks witnessFetch ["AAA", "BBB"] ["BBB", "AAA"]
      = [plainBundle "AAA", errorBundle "BBB" ⟨"ValueError", "boom"⟩]
    ∧ (errorBundle "BBB" ⟨"ValueError", "boom"⟩).error ≠ none := by
  have hsym : ∀ s b, witnessFetch s = Except.ok b → b.symbol = s := by
    intro s b h
    by_cases hs : s = "BBB"
    · simp [witnessFetch, hs] at h
    · simp [witnessFetch, hs] at h
      rw [← h]
      rfl
  have h := C1_fetch_multiple_stocks witnessFetch ["AAA", "BBB"] ["BBB", "AAA"]
    (by decide) (List.Perm.swap "AAA" "BBB" []) hsym
  constructor
  · rw [h.1]
    simp [settleUnit, witnessFetch]
  · have h3 := (h.2.2 "BBB" ⟨"ValueError", "boom"⟩ (by simp [witnessFetch])).2.1
    rw [h3]
    simp
